import Mathlib

/-!
# A verification development for the TinyTorch `Tensor` class

Shallow embedding of `src/tinytorch/core/tensor.py` (class `Tensor`).  A
NumPy `ndarray` is modelled as a shape (list of dimension sizes) together
with a row-major flat list of element values; float32 element values are
modelled exactly as rationals (IEEE rounding and the special values
NaN/±inf are abstracted away — none of the properties below depends on
them).  Python exceptions are modelled by `Except TErr`.
-/

/-- Element values: float32 contents, modelled exactly as rationals. -/
abbrev Val := ℚ

/-- Row-major (NumPy C-order) linear offset of multi-index `idx` in an array
of dimensions `shape`: the last coordinate varies fastest. -/
def ravel : List Nat → List Nat → Nat
  | [], _ => 0
  | _ :: _, [] => 0
  | _ :: ds, i :: is => i * ds.prod + ravel ds is

/-- Coordinates of the linear offset `off` in dimensions `shape`
(left inverse of `ravel` on valid indices). -/
def unravel : List Nat → Nat → List Nat
  | [], _ => []
  | _ :: ds, off => off / ds.prod :: unravel ds (off % ds.prod)

/-- `idx` is a valid multi-index for `shape`: same length and every
coordinate strictly below the corresponding dimension. -/
def validIdx : List Nat → List Nat → Bool
  | [], [] => true
  | d :: ds, i :: is => decide (i < d) && validIdx ds is
  | _, _ => false

theorem ravel_lt {shape idx : List Nat} (h : validIdx shape idx = true) :
    ravel shape idx < shape.prod := by
  induction shape generalizing idx with
  | nil =>
    cases idx with
    | nil => simp [ravel]
    | cons i is => simp [validIdx] at h
  | cons d ds ih =>
    cases idx with
    | nil => simp [validIdx] at h
    | cons i is =>
      simp only [validIdx, Bool.and_eq_true, decide_eq_true_eq] at h
      have hr := ih h.2
      calc ravel (d :: ds) (i :: is) = i * ds.prod + ravel ds is := rfl
        _ < i * ds.prod + ds.prod := Nat.add_lt_add_left hr _
        _ = (i + 1) * ds.prod := by ring
        _ ≤ d * ds.prod := Nat.mul_le_mul_right _ h.1
        _ = (d :: ds).prod := by simp [List.prod_cons]

theorem unravel_valid {shape : List Nat} {off : Nat} (h : off < shape.prod) :
    validIdx shape (unravel shape off) = true := by
  induction shape generalizing off with
  | nil => simp [unravel, validIdx]
  | cons d ds ih =>
    simp only [List.prod_cons] at h
    have hP : 0 < ds.prod := by
      rcases Nat.eq_zero_or_pos ds.prod with h0 | h0
      · rw [h0, Nat.mul_zero] at h; omega
      · exact h0
    have hdiv : off / ds.prod < d := Nat.div_lt_of_lt_mul (Nat.mul_comm d ds.prod ▸ h)
    have hmod : off % ds.prod < ds.prod := Nat.mod_lt _ hP
    simp only [unravel, validIdx, Bool.and_eq_true, decide_eq_true_eq]
    exact ⟨hdiv, ih hmod⟩

theorem ravel_unravel {shape : List Nat} {off : Nat} (h : off < shape.prod) :
    ravel shape (unravel shape off) = off := by
  induction shape generalizing off with
  | nil => simp only [List.prod_nil] at h; simp [unravel, ravel]; omega
  | cons d ds ih =>
    simp only [List.prod_cons] at h
    have hP : 0 < ds.prod := by
      rcases Nat.eq_zero_or_pos ds.prod with h0 | h0
      · rw [h0, Nat.mul_zero] at h; omega
      · exact h0
    have hmod : off % ds.prod < ds.prod := Nat.mod_lt _ hP
    simp only [unravel, ravel, ih hmod]
    rw [Nat.mul_comm (off / ds.prod) ds.prod]
    exact Nat.div_add_mod off ds.prod

theorem unravel_ravel {shape idx : List Nat} (h : validIdx shape idx = true) :
    unravel shape (ravel shape idx) = idx := by
  induction shape generalizing idx with
  | nil =>
    cases idx with
    | nil => rfl
    | cons i is => simp [validIdx] at h
  | cons d ds ih =>
    cases idx with
    | nil => simp [validIdx] at h
    | cons i is =>
      simp only [validIdx, Bool.and_eq_true, decide_eq_true_eq] at h
      have hr : ravel ds is < ds.prod := ravel_lt h.2
      have hP : 0 < ds.prod := by omega
      simp only [ravel, unravel]
      have h1 : (i * ds.prod + ravel ds is) / ds.prod = i := by
        rw [Nat.mul_comm i ds.prod, Nat.mul_add_div hP, Nat.div_eq_of_lt hr,
          Nat.add_zero]
      have h2 : (i * ds.prod + ravel ds is) % ds.prod = ravel ds is := by
        rw [Nat.mul_comm i ds.prod, Nat.mul_add_mod]
        exact Nat.mod_eq_of_lt hr
      rw [h1, h2, ih h.2]

theorem validIdx_length {shape idx : List Nat} (h : validIdx shape idx = true) :
    idx.length = shape.length := by
  induction shape generalizing idx with
  | nil => cases idx with
    | nil => rfl
    | cons i is => simp [validIdx] at h
  | cons d ds ih =>
    cases idx with
    | nil => simp [validIdx] at h
    | cons i is =>
      simp only [validIdx, Bool.and_eq_true] at h
      simp [ih h.2]

theorem getD_map_range {α : Type} (f : Nat → α) {n k : Nat} (d : α) (h : k < n) :
    (((List.range n).map f).getD k d) = f k := by
  rw [List.getD_eq_getElem _ _ (by simp [h])]
  simp

/-- A NumPy `ndarray` of float32 values: dimension sizes plus the row-major
flat element list, whose length agrees with the shape's product. -/
structure NDArray where
  shape : List Nat
  flat : List Val
  hlen : flat.length = shape.prod

/-- `ndarray.ndim`: the number of dimensions. -/
def NDArray.ndim (a : NDArray) : Nat := a.shape.length

/-- `ndarray.size`: the total number of elements. -/
def NDArray.size (a : NDArray) : Nat := a.shape.prod

/-- `ndarray.itemsize` for dtype float32: 4 bytes per element. -/
def float32Itemsize : Nat := 4

/-- `ndarray.nbytes`: the exact number of bytes occupied by the element
buffer — element count of the buffer times the per-element byte size. -/
def NDArray.nbytes (a : NDArray) : Nat := a.flat.length * float32Itemsize

/-- Element at multi-index `idx` (0 as junk default out of range). -/
def NDArray.get (a : NDArray) (idx : List Nat) : Val :=
  a.flat.getD (ravel a.shape idx) 0

theorem NDArray.eq_of_parts {a b : NDArray} (h1 : a.shape = b.shape)
    (h2 : a.flat = b.flat) : a = b := by
  cases a; cases b
  simp only at h1 h2
  subst h1; subst h2
  rfl

/-- A rank-0 (scalar) array. -/
def NDArray.scalar (x : Val) : NDArray := ⟨[], [x], rfl⟩

/-- A rank-1 array from a value list. -/
def NDArray.vec (xs : List Val) : NDArray := ⟨[xs.length], xs, by simp⟩

/-- Reading an offset-constructed array at a valid index recovers the
generating function at the index's row-major offset. -/
theorem NDArray.get_ofFn {sh : List Nat} {g : Nat → Val} {idx : List Nat}
    (hpf : ((List.range sh.prod).map g).length = sh.prod)
    (hv : validIdx sh idx = true) :
    (NDArray.mk sh ((List.range sh.prod).map g) hpf).get idx = g (ravel sh idx) := by
  unfold NDArray.get
  simp only
  exact getD_map_range g 0 (ravel_lt hv)

/-- Error kinds for exceptions raised by tensor operations.
`shapeError d1 d2` stands for a shape-mismatch error whose message cites the
two conflicting quantities `d1` and `d2` (`ValueError` in the source);
`broadcastError` for the backend's could-not-broadcast error;
`typeError`, `indexError`, `valueError` for Python `TypeError`,
`IndexError`, and other backend `ValueError`s. -/
inductive TErr where
  | typeError
  | shapeError (d1 d2 : Int)
  | broadcastError
  | indexError
  | valueError
  deriving DecidableEq

/-- The `Tensor` class: `self.data` is the backing float32 array.
The cached `self.shape`, `self.size`, `self.dtype` attributes are always
derived from `self.data` at construction and never mutated, so they are
modelled as the functions `Tensor.shape` / `Tensor.size` below. -/
structure Tensor where
  data : NDArray

/-- `self.shape` (cached from `self.data.shape` in `__init__`). -/
def Tensor.shape (t : Tensor) : List Nat := t.data.shape

/-- `self.size` (cached from `self.data.size` in `__init__`). -/
def Tensor.size (t : Tensor) : Nat := t.data.size

/-- `memory_footprint()`: `return self.data.nbytes`. -/
def Tensor.memory_footprint (t : Tensor) : Nat := t.data.nbytes

/-- Wrapping a backend array result: `Tensor(nd_result)`; `np.array` on an
`ndarray` copies it, keeping shape and element order. -/
def Tensor.ofArray (a : NDArray) : Tensor := ⟨a⟩

theorem Tensor.eq_of_data {s t : Tensor} (h : s.data = t.data) : s = t := by
  cases s; cases t; simpa using h

/-- Raw input acceptable by `Tensor(data)` and the arithmetic operators:
either numeric scalar/array-like data (already converted to its array
form), or a `Tensor` instance. -/
inductive PyVal where
  | arr (a : NDArray)
  | tensorObj (t : Tensor)

/-- `Tensor.__init__`: `self.data = np.array(data, dtype=np.float32)`.
Numeric scalar/array-like input converts to its float32 array.  A `Tensor`
object defines `__getitem__` but neither `__len__` nor `__float__` nor
`__array__`, so the backend treats it as an opaque scalar object that
cannot be converted to float32 and raises. -/
def tensorFromVal : PyVal → Except TErr Tensor
  | .arr a => .ok ⟨a⟩
  | .tensorObj _ => .error .typeError

/-- NumPy broadcasting of two (reversed) shapes, aligned from the trailing
axis: each aligned pair must be equal or contain a 1, and the result takes
the larger size; missing leading dimensions are treated as size 1. -/
def bcastRev : List Nat → List Nat → Option (List Nat)
  | [], l => some l
  | a :: as, [] => some (a :: as)
  | a :: as, b :: bs =>
    match bcastRev as bs with
    | none => none
    | some rest =>
      if a = b then some (a :: rest)
      else if a = 1 then some (b :: rest)
      else if b = 1 then some (a :: rest)
      else none

/-- The broadcast result shape of two operand shapes (`none` when the
shapes are not broadcast-compatible). -/
def broadcastShapes (s1 s2 : List Nat) : Option (List Nat) :=
  (bcastRev s1.reverse s2.reverse).map List.reverse

/-- The index into an operand of dimensions `shape` read when producing the
broadcast result element at index `idx`: align from the trailing axis (drop
the extra leading coordinates) and clamp the coordinate of every stretched
size-1 dimension to 0. -/
def bcastIdx (shape idx : List Nat) : List Nat :=
  (shape.zip (idx.drop (idx.length - shape.length))).map
    (fun p => if p.1 = 1 then 0 else p.2)

/-- A broadcasting element-wise binary operation of the backend
(`self.data + other`, `self.data * other.data`, ...). -/
def npBinop (f : Val → Val → Val) (a b : NDArray) : Except TErr NDArray :=
  match broadcastShapes a.shape b.shape with
  | none => .error .broadcastError
  | some sh =>
    .ok ⟨sh, (List.range sh.prod).map
      (fun off => f (a.get (bcastIdx a.shape (unravel sh off)))
                    (b.get (bcastIdx b.shape (unravel sh off)))), by simp⟩

/-- Result of a Python arithmetic dunder: either a wrapped `Tensor` or a
bare backend array. -/
inductive OpResult where
  | tensor (t : Tensor)
  | array (a : NDArray)

/-- `__add__` (lines 44-48): a `Tensor` operand gives
`Tensor(self.data + other.data)`; a raw operand gives `self.data + other`,
returned as a bare backend array. -/
def Tensor.add (self : Tensor) (other : PyVal) : Except TErr OpResult :=
  match other with
  | .tensorObj u => (npBinop (· + ·) self.data u.data).map (fun a => .tensor ⟨a⟩)
  | .arr x => (npBinop (· + ·) self.data x).map (fun a => .array a)

/-- `__sub__` (lines 50-55): same pattern as `__add__`. -/
def Tensor.sub (self : Tensor) (other : PyVal) : Except TErr OpResult :=
  match other with
  | .tensorObj u => (npBinop (· - ·) self.data u.data).map (fun a => .tensor ⟨a⟩)
  | .arr x => (npBinop (· - ·) self.data x).map (fun a => .array a)

/-- `__mul__` (lines 57-61): same pattern as `__add__`. -/
def Tensor.mul (self : Tensor) (other : PyVal) : Except TErr OpResult :=
  match other with
  | .tensorObj u => (npBinop (· * ·) self.data u.data).map (fun a => .tensor ⟨a⟩)
  | .arr x => (npBinop (· * ·) self.data x).map (fun a => .array a)

/-- `__truediv__` (lines 63-67): unlike the other three, BOTH branches wrap
the result in `Tensor(...)` (line 67 reads `return Tensor(self.data / other)`).
Division is exact rational division here; IEEE `±inf`/`NaN` results of
division by zero are abstracted (no claim depends on them). -/
def Tensor.div (self : Tensor) (other : PyVal) : Except TErr OpResult :=
  match other with
  | .tensorObj u => (npBinop (· / ·) self.data u.data).map (fun a => .tensor ⟨a⟩)
  | .arr x => (npBinop (· / ·) self.data x).map (fun a => .tensor ⟨a⟩)

/-- Shape of an operation result (Tensor or bare array), `none` on error. -/
def opShape : Except TErr OpResult → Option (List Nat)
  | .ok (.tensor t) => some t.shape
  | .ok (.array a) => some a.shape
  | .error _ => none

/-- Element of an operation result at `idx`, `none` on error. -/
def opGet (idx : List Nat) : Except TErr OpResult → Option Val
  | .ok (.tensor t) => some (t.data.get idx)
  | .ok (.array a) => some (a.get idx)
  | .error _ => none

/-- Did the operation return a bare backend array (not a `Tensor`)? -/
def opIsBareArray : Except TErr OpResult → Bool
  | .ok (.array _) => true
  | _ => false

/-- Did the operation return a `Tensor` instance? -/
def opIsTensor : Except TErr OpResult → Bool
  | .ok (.tensor _) => true
  | _ => false

/-- `np.dot` of two 1-D slices of equal length: the sum of products. -/
def npDot (v w : List Val) : Val := (List.zipWith (· * ·) v w).sum

/-- The row slice `a[i, :]` of a 2-D array. -/
def NDArray.rowSlice (a : NDArray) (i : Nat) : List Val :=
  (List.range (a.shape.getD 1 0)).map (fun k => a.get [i, k])

/-- The column slice `a[:, j]` of a 2-D array. -/
def NDArray.colSlice (a : NDArray) (j : Nat) : List Val :=
  (List.range (a.shape.getD 0 0)).map (fun k => a.get [k, j])

/-- The special dot-product-per-cell path of `matmul` (lines 79-85), taken
when `self.data.shape == (2, 2)`: the loop appends
`np.dot(self.data[i,:], other.data[:,j])` for `(i, j)` in the row-major
order `(0,0), (0,1), (1,0), (1,1)` and reshapes the four results to
`(2, 2)`. -/
def matmulSpecial (a b : NDArray) : NDArray :=
  ⟨[2, 2],
    [npDot (a.rowSlice 0) (b.colSlice 0), npDot (a.rowSlice 0) (b.colSlice 1),
     npDot (a.rowSlice 1) (b.colSlice 0), npDot (a.rowSlice 1) (b.colSlice 1)],
    rfl⟩

/-- The contraction sum `Σ_{k < K} f k` of matrix multiplication. -/
def contract (f : Nat → Val) (K : Nat) : Val := ((List.range K).map f).sum

/-- `np.matmul(a, v)` with 1-D `v`: contraction of `a`'s last axis against
`v`'s only axis.  A rank-0 `a` is rejected by the backend; a mismatch of the
contracted lengths raises the backend's shape error, whose message cites the
two mismatched sizes. -/
def npMatmulVec (a v : NDArray) : Except TErr NDArray :=
  match a.shape.getLast? with
  | none => .error .valueError
  | some L =>
    let K := v.shape.headD 0
    if L ≠ K then .error (.shapeError (Int.ofNat L) (Int.ofNat K))
    else
      .ok ⟨a.shape.dropLast,
        (List.range a.shape.dropLast.prod).map
          (fun off => contract
            (fun k => a.get (unravel a.shape.dropLast off ++ [k]) * v.get [k]) K),
        by simp⟩

/-- `np.matmul` with both operands of rank ≥ 2: the last two axes of each
operand are matrix dimensions, the leading axes broadcast. -/
def npMatmulCore (a b : NDArray) : Except TErr NDArray :=
  let aLead := a.shape.take (a.ndim - 2)
  let bLead := b.shape.take (b.ndim - 2)
  let n := a.shape.getD (a.ndim - 2) 0
  let K := a.shape.getD (a.ndim - 1) 0
  let K2 := b.shape.getD (b.ndim - 2) 0
  let m := b.shape.getD (b.ndim - 1) 0
  if K ≠ K2 then .error (.shapeError (Int.ofNat K) (Int.ofNat K2))
  else
    match broadcastShapes aLead bLead with
    | none => .error .broadcastError
    | some lead =>
      let rsh := lead ++ [n, m]
      .ok ⟨rsh, (List.range rsh.prod).map (fun off =>
        let idx := unravel rsh off
        let lidx := idx.take lead.length
        let i := idx.getD lead.length 0
        let j := idx.getD (lead.length + 1) 0
        contract (fun k => a.get (bcastIdx aLead lidx ++ [i, k]) *
                           b.get (bcastIdx bLead lidx ++ [k, j])) K), by simp⟩

/-- `np.matmul(a, b)` with 1-D `a` and rank-≥2 `b`: NumPy prepends an axis
to `a`, multiplies, and removes that axis from the result, giving
`(K) @ (..., K, m) -> (..., m)`. -/
def npMatmulVecLeft (a b : NDArray) : Except TErr NDArray :=
  let K := a.shape.headD 0
  let K2 := b.shape.getD (b.ndim - 2) 0
  if K ≠ K2 then .error (.shapeError (Int.ofNat K) (Int.ofNat K2))
  else
    let rsh := b.shape.eraseIdx (b.ndim - 2)
    .ok ⟨rsh, (List.range rsh.prod).map (fun off =>
      let idx := unravel rsh off
      let lidx := idx.take (b.ndim - 2)
      let j := idx.getD (b.ndim - 2) 0
      contract (fun k => a.get [k] * b.get (lidx ++ [k, j])) K), by simp⟩

/-- `np.matmul` for a rank-≥2 second operand (rank-0 operands are rejected
by the backend; a 1-D first operand is promoted as in NumPy). -/
def npMatmul (a b : NDArray) : Except TErr NDArray :=
  if a.ndim = 0 then .error .valueError
  else if a.ndim = 1 then npMatmulVecLeft a b
  else npMatmulCore a b

/-- `matmul(self, other)` (lines 69-86).  The `isinstance` guard of line 71
cannot fire in this typed embedding, where `other` is a `Tensor`. -/
def Tensor.matmul (self other : Tensor) : Except TErr Tensor :=
  if other.data.ndim = 0 then
    -- lines 73-74: `return Tensor(self * other)`.  `self * other` is already
    -- a `Tensor` (the `__mul__` Tensor-Tensor branch), so the constructor
    -- re-wraps a `Tensor` object and the float32 conversion raises.
    match self.mul (.tensorObj other) with
    | .error e => .error e
    | .ok (.tensor u) => tensorFromVal (.tensorObj u)
    | .ok (.array x) => tensorFromVal (.arr x)
  else if other.data.ndim = 1 then
    -- lines 75-76: `return Tensor(np.matmul(self.data, other.data))`
    (npMatmulVec self.data other.data).map Tensor.ofArray
  else
    -- line 77: `if not self.shape[-1] == other.shape[-2]`
    match self.shape.getLast? with
    | none => .error .indexError   -- `self.shape[-1]` of a rank-0 tensor
    | some sl =>
      let ol := other.shape.getD (other.data.ndim - 2) 0
      if sl ≠ ol then .error (.shapeError (Int.ofNat sl) (Int.ofNat ol))
      else if self.data.shape = [2, 2] then
        if other.data.ndim = 2 then
          .ok (Tensor.ofArray (matmulSpecial self.data other.data))
        else .error .valueError
          -- For a rank->2 `other`, the slice `other.data[:, j]` is not 1-D,
          -- and the `np.dot` / `reshape(2, 2)` combination of the special
          -- path does not implement matmul; no claim in scope exercises
          -- this corner and it is modelled as a backend error.
      else (npMatmul self.data other.data).map Tensor.ofArray

/-- Conversion of a target shape to all-non-negative dimension sizes
(`none` when any entry is negative, e.g. an unresolved `-1`). -/
def toNatShape : List Int → Option (List Nat)
  | [] => some []
  | i :: is => if 0 ≤ i then (toNatShape is).map (fun r => i.toNat :: r) else none

theorem toNatShape_prod {l : List Int} {sh : List Nat}
    (h : toNatShape l = some sh) : l.prod = Int.ofNat sh.prod := by
  induction l generalizing sh with
  | nil =>
    simp only [toNatShape, Option.some.injEq] at h
    subst h; rfl
  | cons i is ih =>
    simp only [toNatShape] at h
    by_cases hi : 0 ≤ i
    · simp only [hi, if_true, Option.map_eq_some'] at h
      obtain ⟨r, hr, hcons⟩ := h
      subst hcons
      simp only [List.prod_cons, ih hr]
      have : i = Int.ofNat i.toNat := (Int.toNat_of_nonneg hi).symm
      rw [this]
      simp [Int.ofNat_mul_ofNat]
    · simp [hi] at h

theorem toNatShape_ofNat (s : List Nat) :
    toNatShape (s.map Int.ofNat) = some s := by
  induction s with
  | nil => rfl
  | cons d ds ih => simp [toNatShape, ih]

/-- `reshape(*shape)` (lines 96-107), after Python's argument normalization
(`*args` or a single tuple/list) to a plain list of integers.  The source
raises on a failed equality check and proceeds otherwise; the branches
appear here in the opposite (equivalent) order so that the success branch
can use the equality. -/
def Tensor.reshape (t : Tensor) (shape : List Int) : Except TErr Tensor :=
  match shape.getLast? with
  | none => .error .indexError   -- `shape[-1]` of an empty target: IndexError
  | some last =>
    if last = -1 ∧ shape.headD 0 = 0 then .error .valueError
      -- `self.size // shape[0]` with `shape[0] == 0`: ZeroDivisionError
    else
      -- lines 102-104: only a trailing `-1` is resolved, and only against
      -- `shape[0]`, producing a 2-element target
      let shape2 := if last = -1 then
        [shape.headD 0, (Int.ofNat t.size).fdiv (shape.headD 0)]
      else shape
      if hp : Int.ofNat t.data.size = shape2.prod then
        match htn : toNatShape shape2 with
        | some sh => .ok (Tensor.ofArray ⟨sh, t.data.flat, by
            rw [t.data.hlen]
            have h2 : shape2.prod = Int.ofNat sh.prod := toNatShape_prod htn
            rw [h2] at hp
            exact Int.ofNat.inj hp⟩)
        | none => .error .valueError
          -- a negative entry (an unresolved `-1`) survives the product
          -- check only at total size 0; the backend cannot infer the
          -- wildcard from size 0 and raises
      else .error (.shapeError (Int.ofNat t.data.size) shape2.prod)
        -- line 106: `Total elements must match. {size} ≠ {np.prod(shape)}`

/-- Python list indexing `l[i]` on a list of length `n`, with
negative-index support: `none` means `IndexError`. -/
def pyIndex (n : Nat) (i : Int) : Option Nat :=
  if 0 ≤ i then (if i < (n : Int) then some i.toNat else none)
  else (if 0 ≤ i + (n : Int) then some (i + (n : Int)).toNat else none)

/-- The simultaneous swap `l[i], l[j] = l[j], l[i]`. -/
def swapAt (l : List Nat) (i j : Nat) : List Nat :=
  (l.set i (l.getD j 0)).set j (l.getD i 0)

/-- The operand index read by `np.transpose(a, axes)` when producing the
result element at index `idx`: coordinate `axes[m]` of the operand equals
coordinate `m` of the result, so operand coordinate `k` is
`idx[axes.indexOf k]`. -/
def permSource (axes idx : List Nat) : List Nat :=
  (List.range axes.length).map (fun k => idx.getD (List.indexOf k axes) 0)

/-- `np.transpose(a, axes)` for a permutation `axes` of the dimensions:
result dimension `m` has size `a.shape[axes[m]]`. -/
def npTranspose (a : NDArray) (axes : List Nat) : NDArray :=
  let nsh := axes.map (fun m => a.shape.getD m 0)
  ⟨nsh, (List.range nsh.prod).map
    (fun off => a.get (permSource axes (unravel nsh off))), by simp⟩

/-- `transpose(dim0=None, dim1=None)` (lines 109-118). -/
def Tensor.transpose (t : Tensor) (dim0 dim1 : Option Int) : Except TErr Tensor :=
  let axes := List.range t.shape.length
  if axes.length = 1 then .ok t          -- lines 112-113: `return self`
  else
    match dim0, dim1 with
    | none, none =>
      if t.shape.length < 2 then .error .indexError
        -- `axes[-2]` of a list shorter than 2 (rank 0): IndexError
      else .ok (Tensor.ofArray (npTranspose t.data
        (swapAt axes (axes.length - 2) (axes.length - 1))))
    | some d0, some d1 =>
      match pyIndex axes.length d0, pyIndex axes.length d1 with
      | some i, some j => .ok (Tensor.ofArray (npTranspose t.data (swapAt axes i j)))
      | _, _ => .error .indexError       -- `axes[dim0]` out of range
    | _, _ => .error .typeError          -- `axes[None]` when only one dim given

/-- Rebuild a full index from a reduced one: insert coordinate `x` at
position `k`. -/
def insertAt : Nat → Nat → List Nat → List Nat
  | 0, x, l => x :: l
  | _ + 1, x, [] => [x]
  | k + 1, x, d :: l => d :: insertAt k x l

/-- `max_{j<K} f j` for `K ≥ 1` (junk 0 at `K = 0`, guarded by callers). -/
def maxOver (f : Nat → Val) : Nat → Val
  | 0 => 0
  | 1 => f 0
  | k + 2 => max (maxOver f (k + 1)) (f (k + 1))

theorem prod_set_one {l : List Nat} {k : Nat} (h : k < l.length) :
    (l.set k 1).prod = (l.eraseIdx k).prod := by
  induction l generalizing k with
  | nil => simp at h
  | cons d ds ih =>
    cases k with
    | zero => simp [List.set, List.eraseIdx]
    | succ k =>
      simp only [List.set, List.eraseIdx, List.prod_cons]
      rw [ih (by simpa using h)]

/-- `np.sum(a, axis=axis, keepdims=keepdims)`: with `axis=None` all elements
reduce to a 0-d array (all-ones shape of the same rank under `keepdims`);
with a valid axis `k`, entry `idx` of the result sums over the removed
coordinate.  An out-of-range axis raises (`AxisError`). -/
def npSum (a : NDArray) (axis : Option Nat) (keepdims : Bool) :
    Except TErr NDArray :=
  match axis with
  | none =>
    if keepdims then .ok ⟨List.replicate a.ndim 1, [a.flat.sum], by simp⟩
    else .ok ⟨[], [a.flat.sum], rfl⟩
  | some k =>
    if hk : k < a.ndim then
      let osh := a.shape.eraseIdx k
      let core := (List.range osh.prod).map
        (fun off => contract (fun j => a.get (insertAt k j (unravel osh off)))
          (a.shape.getD k 0))
      if keepdims then .ok ⟨a.shape.set k 1, core, by
        simp [core, osh, prod_set_one hk]⟩
      else .ok ⟨osh, core, by simp [core, osh]⟩
    else .error .valueError

/-- `np.mean(a, axis=axis, keepdims=keepdims)`: the sum divided by the
count of reduced elements.  NumPy's NaN (with a warning) for a zero count
is abstracted to the junk value 0 — no claim depends on the value, only on
the result's shape. -/
def npMean (a : NDArray) (axis : Option Nat) (keepdims : Bool) :
    Except TErr NDArray :=
  match axis with
  | none =>
    let m := a.flat.sum / ((a.size : Nat) : Val)
    if keepdims then .ok ⟨List.replicate a.ndim 1, [m], by simp⟩
    else .ok ⟨[], [m], rfl⟩
  | some k =>
    if hk : k < a.ndim then
      let osh := a.shape.eraseIdx k
      let core := (List.range osh.prod).map
        (fun off => contract (fun j => a.get (insertAt k j (unravel osh off)))
          (a.shape.getD k 0) / ((a.shape.getD k 0 : Nat) : Val))
      if keepdims then .ok ⟨a.shape.set k 1, core, by
        simp [core, osh, prod_set_one hk]⟩
      else .ok ⟨osh, core, by simp [core, osh]⟩
    else .error .valueError

/-- `np.max(a, axis=axis, keepdims=keepdims)`: the maximum over the reduced
elements.  A zero-size reduction ("zero-size array to reduction operation
maximum which has no identity") raises `ValueError`. -/
def npMax (a : NDArray) (axis : Option Nat) (keepdims : Bool) :
    Except TErr NDArray :=
  match axis with
  | none =>
    match a.flat with
    | [] => .error .valueError
    | x :: xs =>
      if keepdims then .ok ⟨List.replicate a.ndim 1, [xs.foldl max x], by simp⟩
      else .ok ⟨[], [xs.foldl max x], rfl⟩
  | some k =>
    if hk : k < a.ndim then
      if a.shape.getD k 0 = 0 then .error .valueError
      else
        let osh := a.shape.eraseIdx k
        let core := (List.range osh.prod).map
          (fun off => maxOver (fun j => a.get (insertAt k j (unravel osh off)))
            (a.shape.getD k 0))
        if keepdims then .ok ⟨a.shape.set k 1, core, by
          simp [core, osh, prod_set_one hk]⟩
        else .ok ⟨osh, core, by simp [core, osh]⟩
    else .error .valueError

/-- `sum(self, axis=None, keepdims=False)` (lines 120-122). -/
def Tensor.sum (t : Tensor) (axis : Option Nat) (keepdims : Bool) :
    Except TErr Tensor :=
  (npSum t.data axis keepdims).map Tensor.ofArray

/-- `mean(self, axis=None, keepdims=False)` (lines 124-127). -/
def Tensor.mean (t : Tensor) (axis : Option Nat) (keepdims : Bool) :
    Except TErr Tensor :=
  (npMean t.data axis keepdims).map Tensor.ofArray

/-- `max(self, axis=None, keepdims=False)` (lines 129-132). -/
def Tensor.max (t : Tensor) (axis : Option Nat) (keepdims : Bool) :
    Except TErr Tensor :=
  (npMax t.data axis keepdims).map Tensor.ofArray

/-- `Tensor([[1, 2], [3, 4]])`. -/
def t22 : Tensor := ⟨⟨[2, 2], [1, 2, 3, 4], rfl⟩⟩

/-- `Tensor([1, 2, 3])`. -/
def v3 : Tensor := ⟨⟨[3], [1, 2, 3], rfl⟩⟩

/-- `Tensor(list(range(6)))`. -/
def t6 : Tensor := ⟨⟨[6], [0, 1, 2, 3, 4, 5], rfl⟩⟩

/-- `Tensor(5.0)`: a rank-0 tensor. -/
def t0 : Tensor := ⟨⟨[], [5], rfl⟩⟩

/-- `Tensor(2.0)`: a rank-0 tensor. -/
def s2 : Tensor := ⟨⟨[], [2], rfl⟩⟩

/-- `Tensor([])`: the empty rank-1 tensor (size 0). -/
def tEmpty : Tensor := ⟨⟨[0], [], rfl⟩⟩

/-- The function view of the swap of positions `i` and `j`. -/
def swapFn (i j k : Nat) : Nat := if k = i then j else if k = j then i else k

theorem broadcastShapes_nil_right (s : List Nat) : broadcastShapes s [] = some s := by
  have h : ∀ l : List Nat, bcastRev l [] = some l := fun l => by cases l <;> rfl
  simp [broadcastShapes, h]

/-- C9: for every Tensor `t`, `memory_footprint()` returns exactly
`t.size * 4` bytes. -/
theorem memory_footprint_eq_size_mul_four (t : Tensor) :
    t.memory_footprint = t.size * 4 := by
  unfold Tensor.memory_footprint Tensor.size NDArray.nbytes NDArray.size
    float32Itemsize
  rw [t.data.hlen]

/-- C1: `Tensor([[1,2],[3,4]]).matmul(Tensor([1,2,3]))` raises a
ShapeError-kind error citing the two mismatched dimensions `2 ≠ 3`
(the rank-1 branch hands the operands to the backend matmul, whose shape
check fails citing both sizes). -/
theorem matmul_2x2_vec3_shape_error :
    t22.matmul v3 = .error (.shapeError 2 3) := rfl

/-- C10: a rank-0 tensor's no-argument `transpose()` raises an
index-out-of-range error: the rank-1 early return does not cover rank 0,
and the default branch indexes `axes[-2]` of the empty axis list. -/
theorem transpose_rank0_index_error (t : Tensor) (h : t.shape = []) :
    t.transpose none none = .error .indexError := by
  simp [Tensor.transpose, h]

theorem transpose_rank0_index_error_witness :
    t0.shape = [] ∧ t0.transpose none none = .error .indexError :=
  ⟨rfl, transpose_rank0_index_error t0 rfl⟩

/-- C4 (code evaluated at the failing input): `matmul` against a rank-0
(scalar) Tensor raises a TypeError instead of returning the element-wise
product: line 74 re-wraps the Tensor produced by `self * other` in the
`Tensor` constructor, whose float32 conversion rejects a `Tensor` object. -/
theorem matmul_scalar_raises (t s : Tensor) (h : s.data.shape = []) :
    t.matmul s = .error .typeError := by
  have h0 : s.data.ndim = 0 := by simp [NDArray.ndim, h]
  simp [Tensor.matmul, h0, Tensor.mul, npBinop, h, broadcastShapes_nil_right,
    tensorFromVal, Except.map]

theorem matmul_scalar_raises_witness :
    s2.data.shape = [] ∧ t22.matmul s2 = .error .typeError :=
  ⟨rfl, matmul_scalar_raises t22 s2 rfl⟩

/-- C3 (code evaluated at the failing input): the wildcard `-1` is resolved
only in the trailing position (and only against `shape[0]`):
`Tensor(list(range(6))).reshape(2, -1)` resolves to shape `(2, 3)`, but
`Tensor(list(range(6))).reshape(-1, 3)` leaves `-1` unresolved and raises
the element-count error `6 ≠ -3` instead of resolving to `(2, 3)`. -/
theorem reshape_wildcard_trailing_only :
    ((t6.reshape [2, -1]).map Tensor.shape = .ok [2, 3]) ∧
    (t6.reshape [-1, 3] = .error (.shapeError 6 (-3))) :=
  ⟨rfl, rfl⟩

theorem map_ofNat_prod (s : List Nat) :
    (s.map Int.ofNat).prod = Int.ofNat s.prod :=
  toNatShape_prod (toNatShape_ofNat s)

theorem reshape_natShape_ok (t : Tensor) (s : List Nat) (hs : s ≠ [])
    (hp : s.prod = t.data.size) :
    ∃ u : Tensor, t.reshape (s.map Int.ofNat) = .ok u ∧
      u.data.shape = s ∧ u.data.flat = t.data.flat := by
  obtain ⟨y, hy⟩ := Option.isSome_iff_exists.mp (List.getLast?_isSome.mpr hs)
  have hney : ¬ (Int.ofNat y = -1) := by
    intro hE
    have hnn : (0 : Int) ≤ Int.ofNat y := Int.natCast_nonneg y
    rw [hE] at hnn
    exact absurd hnn (by norm_num)
  have hpI : Int.ofNat t.data.size = (s.map Int.ofNat).prod := by
    rw [map_ofNat_prod, hp]
  unfold Tensor.reshape
  have hlast : (List.map Int.ofNat s).getLast? = some (Int.ofNat y) := by
    rw [List.getLast?_map, hy]
    rfl
  rw [hlast]
  simp only [hney, false_and, if_false, dif_pos hpI]
  split
  · next sh' heq =>
    rw [if_neg hney, toNatShape_ofNat] at heq
    obtain rfl : s = sh' := Option.some.inj heq
    exact ⟨_, rfl, rfl, rfl⟩
  · next heq =>
    rw [if_neg hney, toNatShape_ofNat] at heq
    exact absurd heq (by simp)

/-- C6 (amended): for every Tensor `t` of rank ≥ 1 and every nonempty
target shape `s` of non-negative integers with `product(s) == t.size`,
`t.reshape(s).reshape(t.shape)` succeeds and returns `t` itself (same
shape, same elements). -/
theorem reshape_round_trip (t : Tensor) (s : List Nat) (hs : s ≠ [])
    (ht : t.shape ≠ []) (hp : s.prod = t.size) :
    (t.reshape (s.map Int.ofNat)).bind
      (fun u => u.reshape (t.shape.map Int.ofNat)) = .ok t := by
  obtain ⟨u, hu, hush, huf⟩ := reshape_natShape_ok t s hs hp
  rw [hu]
  have hp2 : t.shape.prod = u.data.size := by
    unfold NDArray.size
    rw [hush, hp]
    rfl
  obtain ⟨w, hw, hwsh, hwf⟩ := reshape_natShape_ok u t.shape ht hp2
  show (u.reshape (t.shape.map Int.ofNat)) = .ok t
  rw [hw]
  have : w = t :=
    Tensor.eq_of_data (NDArray.eq_of_parts hwsh (hwf.trans huf))
  rw [this]

/-- C6 (counterexample to the claim as stated): for the singleton tensor
`Tensor([5.0])` and the empty target shape `s = ()` (whose product is 1 =
size), the round trip does not succeed: `reshape(())` indexes `shape[-1]`
of an empty tuple and raises an IndexError. -/
theorem reshape_round_trip_empty_counterexample :
    (([] : List Nat).prod = (Tensor.mk (NDArray.vec [5])).size) ∧
    ((Tensor.mk (NDArray.vec [5])).reshape (([] : List Nat).map Int.ofNat)).bind
      (fun u => u.reshape ((Tensor.mk (NDArray.vec [5])).shape.map Int.ofNat))
      = .error .indexError :=
  ⟨rfl, rfl⟩

/-- C8 (amended): for every Tensor, `sum` and `mean` with `axis=None`
return a 0-dimensional Tensor; `max` with `axis=None` returns a
0-dimensional Tensor whenever the tensor is nonempty; and
`Tensor([[1,2],[3,4]]).sum(axis=0)` yields values `[4, 6]` with shape
`(2,)`, while the same call with `keepdims=True` yields shape `(1, 2)`
with the same values `[[4, 6]]`. -/
theorem reductions_axis_none_scalar_shape (t : Tensor) :
    ((t.sum none false).map Tensor.shape = .ok []) ∧
    ((t.mean none false).map Tensor.shape = .ok []) ∧
    (t.data.flat ≠ [] → (t.max none false).map Tensor.shape = .ok []) ∧
    ((t22.sum (some 0) false).map Tensor.shape = .ok [2]) ∧
    ((t22.sum (some 0) false).map (fun u => u.data.flat) = .ok [4, 6]) ∧
    ((t22.sum (some 0) true).map Tensor.shape = .ok [1, 2]) ∧
    ((t22.sum (some 0) true).map (fun u => u.data.flat) = .ok [4, 6]) := by
  refine ⟨rfl, rfl, ?_, rfl, ?_, rfl, ?_⟩
  · intro hne
    cases hf : t.data.flat with
    | nil => exact absurd hf hne
    | cons x xs =>
      simp [Tensor.max, npMax, hf, Except.map, Tensor.ofArray, Tensor.shape]
  · simp [Tensor.sum, npSum, t22, contract, insertAt, unravel, NDArray.get,
      ravel, NDArray.ndim, List.range_succ, Except.map, Tensor.ofArray,
      List.eraseIdx, List.getD]
    norm_num
  · simp [Tensor.sum, npSum, t22, contract, insertAt, unravel, NDArray.get,
      ravel, NDArray.ndim, List.range_succ, Except.map, Tensor.ofArray,
      List.eraseIdx, List.getD]
    norm_num

theorem reductions_axis_none_scalar_shape_witness :
    ((t22.sum none false).map Tensor.shape = .ok []) ∧
    ((t22.mean none false).map Tensor.shape = .ok []) ∧
    ((t22.max none false).map Tensor.shape = .ok []) := by
  obtain ⟨h1, h2, h3, _⟩ := reductions_axis_none_scalar_shape t22
  exact ⟨h1, h2, h3 (by decide)⟩

/-- C8 (counterexample to the claim as stated): on the empty tensor
`Tensor([])`, `max` with `axis=None` raises the backend's zero-size
reduction `ValueError` instead of returning a 0-dimensional Tensor. -/
theorem max_axis_none_empty_errors :
    tEmpty.max none false = .error .valueError := rfl

theorem npBinop_get (f : Val → Val → Val) (a b : NDArray) {sh : List Nat}
    (hbc : broadcastShapes a.shape b.shape = some sh) :
    ∃ r : NDArray, npBinop f a b = .ok r ∧ r.shape = sh ∧
      ∀ idx, validIdx sh idx = true →
        r.get idx = f (a.get (bcastIdx a.shape idx)) (b.get (bcastIdx b.shape idx)) := by
  unfold npBinop
  rw [hbc]
  refine ⟨_, rfl, rfl, ?_⟩
  intro idx hv
  rw [NDArray.get_ofFn _ hv, unravel_ravel hv]

/-- C2 (amended): for every Tensor `t` and every raw scalar or array-like
operand `x` of broadcast-compatible shape, `div` returns a new Tensor while
`add`, `sub`, and `mul` return the bare backend broadcast result (NOT a
Tensor); in all four cases the result carries the broadcast shape and its
elements are the broadcast element-wise combination of `t.data` and `x`. -/
theorem elementwise_raw_operand (t : Tensor) (x : NDArray) (sh idx : List Nat)
    (hbc : broadcastShapes t.data.shape x.shape = some sh)
    (hv : validIdx sh idx = true) :
    (opIsBareArray (t.add (.arr x)) = true ∧
      opShape (t.add (.arr x)) = some sh ∧
      opGet idx (t.add (.arr x)) =
        some (t.data.get (bcastIdx t.data.shape idx) + x.get (bcastIdx x.shape idx))) ∧
    (opIsBareArray (t.sub (.arr x)) = true ∧
      opShape (t.sub (.arr x)) = some sh ∧
      opGet idx (t.sub (.arr x)) =
        some (t.data.get (bcastIdx t.data.shape idx) - x.get (bcastIdx x.shape idx))) ∧
    (opIsBareArray (t.mul (.arr x)) = true ∧
      opShape (t.mul (.arr x)) = some sh ∧
      opGet idx (t.mul (.arr x)) =
        some (t.data.get (bcastIdx t.data.shape idx) * x.get (bcastIdx x.shape idx))) ∧
    (opIsTensor (t.div (.arr x)) = true ∧
      opShape (t.div (.arr x)) = some sh ∧
      opGet idx (t.div (.arr x)) =
        some (t.data.get (bcastIdx t.data.shape idx) / x.get (bcastIdx x.shape idx))) := by
  obtain ⟨r1, h1, h1s, h1g⟩ := npBinop_get (· + ·) t.data x hbc
  obtain ⟨r2, h2, h2s, h2g⟩ := npBinop_get (· - ·) t.data x hbc
  obtain ⟨r3, h3, h3s, h3g⟩ := npBinop_get (· * ·) t.data x hbc
  obtain ⟨r4, h4, h4s, h4g⟩ := npBinop_get (· / ·) t.data x hbc
  refine ⟨⟨?_, ?_, ?_⟩, ⟨?_, ?_, ?_⟩, ⟨?_, ?_, ?_⟩, ⟨?_, ?_, ?_⟩⟩ <;>
    simp [Tensor.add, Tensor.sub, Tensor.mul, Tensor.div, h1, h2, h3, h4,
      Except.map, opIsBareArray, opIsTensor, opShape, opGet, h1s, h2s, h3s,
      h4s, h1g _ hv, h2g _ hv, h3g _ hv, h4g _ hv, Tensor.shape]

theorem elementwise_raw_operand_witness :
    (opIsBareArray (v3.add (.arr (NDArray.scalar 1))) = true ∧
      opShape (v3.add (.arr (NDArray.scalar 1))) = some [3] ∧
      opGet [1] (v3.add (.arr (NDArray.scalar 1))) =
        some (v3.data.get (bcastIdx v3.data.shape [1]) +
          (NDArray.scalar 1).get (bcastIdx (NDArray.scalar 1).shape [1]))) ∧
    (opIsBareArray (v3.sub (.arr (NDArray.scalar 1))) = true ∧
      opShape (v3.sub (.arr (NDArray.scalar 1))) = some [3] ∧
      opGet [1] (v3.sub (.arr (NDArray.scalar 1))) =
        some (v3.data.get (bcastIdx v3.data.shape [1]) -
          (NDArray.scalar 1).get (bcastIdx (NDArray.scalar 1).shape [1]))) ∧
    (opIsBareArray (v3.mul (.arr (NDArray.scalar 1))) = true ∧
      opShape (v3.mul (.arr (NDArray.scalar 1))) = some [3] ∧
      opGet [1] (v3.mul (.arr (NDArray.scalar 1))) =
        some (v3.data.get (bcastIdx v3.data.shape [1]) *
          (NDArray.scalar 1).get (bcastIdx (NDArray.scalar 1).shape [1]))) ∧
    (opIsTensor (v3.div (.arr (NDArray.scalar 1))) = true ∧
      opShape (v3.div (.arr (NDArray.scalar 1))) = some [3] ∧
      opGet [1] (v3.div (.arr (NDArray.scalar 1))) =
        some (v3.data.get (bcastIdx v3.data.shape [1]) /
          (NDArray.scalar 1).get (bcastIdx (NDArray.scalar 1).shape [1]))) :=
  elementwise_raw_operand v3 (NDArray.scalar 1) [3] [1] (by decide) (by decide)

/-- C2 (counterexample to the claim as stated): `Tensor([1,2,3]) + 1.0`
returns a bare backend array, not a Tensor instance (only `__truediv__`
wraps its raw-operand result). -/
theorem add_raw_returns_bare_array :
    opIsTensor (v3.add (.arr (NDArray.scalar 1))) = false ∧
    opIsBareArray (v3.add (.arr (NDArray.scalar 1))) = true :=
  ⟨rfl, rfl⟩

theorem reshape_round_trip_witness :
    (t6.reshape ([2, 3].map Int.ofNat)).bind
      (fun u => u.reshape (t6.shape.map Int.ofNat)) = .ok t6 :=
  reshape_round_trip t6 [2, 3] (by decide) (by decide) (by decide)

/-- C5: for 2×2 Tensors `A` and `B`, `A.matmul(B)` takes the special
dot-product-per-cell path (exactly when `self.shape == (2, 2)`), and that
result equals, element for element, the general batched matrix-multiply of
`A.data` and `B.data` computed by the backend path. -/
theorem matmul_2x2_special_eq_general (A B : Tensor)
    (hA : A.data.shape = [2, 2]) (hB : B.data.shape = [2, 2]) :
    A.matmul B = .ok (Tensor.ofArray (matmulSpecial A.data B.data)) ∧
    npMatmul A.data B.data = .ok (matmulSpecial A.data B.data) := by
  have key : npMatmulCore A.data B.data = .ok (matmulSpecial A.data B.data) := by
    unfold npMatmulCore matmulSpecial npDot NDArray.rowSlice NDArray.colSlice
      contract
    simp only [hA, hB, NDArray.ndim, List.length_cons, List.length_nil]
    norm_num [broadcastShapes, bcastRev, List.range_succ, unravel, bcastIdx]
  constructor
  · simp [Tensor.matmul, Tensor.shape, NDArray.ndim, hA, hB]
  · simp only [npMatmul, NDArray.ndim, hA, List.length_cons, List.length_nil]
    norm_num [key]

theorem matmul_2x2_special_eq_general_witness :
    t22.matmul t22 = .ok (Tensor.ofArray (matmulSpecial t22.data t22.data)) ∧
    npMatmul t22.data t22.data = .ok (matmulSpecial t22.data t22.data) :=
  matmul_2x2_special_eq_general t22 t22 rfl rfl

theorem swapFn_invol (i j k : Nat) : swapFn i j (swapFn i j k) = k := by
  unfold swapFn
  split_ifs <;> omega

theorem swapFn_inj (i j : Nat) : Function.Injective (swapFn i j) := by
  intro a b hab
  rw [← swapFn_invol i j a, hab, swapFn_invol]

theorem swapFn_lt {n i j k : Nat} (hi : i < n) (hj : j < n) (hk : k < n) :
    swapFn i j k < n := by
  unfold swapFn
  split_ifs <;> omega

theorem getD_range {n k : Nat} (h : k < n) : (List.range n).getD k 0 = k := by
  rw [List.getD_eq_getElem _ _ (by simpa using h)]
  simp

theorem swapAt_range_eq_map {n i j : Nat} (hi : i < n) (hj : j < n) :
    swapAt (List.range n) i j = (List.range n).map (swapFn i j) := by
  apply List.ext_getElem
  · simp [swapAt]
  · intro k h1 h2
    simp only [swapAt, getD_range hi, getD_range hj, List.getElem_set,
      List.getElem_map, List.getElem_range, swapFn]
    split_ifs <;> omega

theorem indexOf_map_swapFn {n i j k : Nat} (hi : i < n) (hj : j < n)
    (hk : k < n) :
    List.indexOf k ((List.range n).map (swapFn i j)) = swapFn i j k := by
  have hnd : ((List.range n).map (swapFn i j)).Nodup :=
    (List.nodup_range n).map (swapFn_inj i j)
  have hlt : swapFn i j k < ((List.range n).map (swapFn i j)).length := by
    simpa using swapFn_lt hi hj hk
  have hval : ((List.range n).map (swapFn i j))[swapFn i j k] = k := by
    simp [swapFn_invol]
  have h := List.indexOf_getElem hnd (swapFn i j k) hlt
  rw [hval] at h
  exact h

theorem permSource_swap {n i j : Nat} (hi : i < n) (hj : j < n)
    (idx : List Nat) :
    permSource ((List.range n).map (swapFn i j)) idx =
      (List.range n).map (fun k => idx.getD (swapFn i j k) 0) := by
  unfold permSource
  simp only [List.length_map, List.length_range]
  apply List.map_congr_left
  intro k hk
  rw [indexOf_map_swapFn hi hj (List.mem_range.mp hk)]

theorem validIdx_iff {shape idx : List Nat} :
    validIdx shape idx = true ↔
      idx.length = shape.length ∧
        ∀ k, k < shape.length → idx.getD k 0 < shape.getD k 0 := by
  induction shape generalizing idx with
  | nil => cases idx <;> simp [validIdx]
  | cons d ds ih =>
    cases idx with
    | nil => simp [validIdx]
    | cons i is =>
      simp only [validIdx, Bool.and_eq_true, decide_eq_true_eq, ih,
        List.length_cons]
      constructor
      · rintro ⟨h1, h2, h3⟩
        refine ⟨by omega, ?_⟩
        intro k hk
        cases k with
        | zero => simpa using h1
        | succ k => simpa using h3 k (by omega)
      · rintro ⟨h1, h2⟩
        refine ⟨by simpa using h2 0 (by omega), by omega, ?_⟩
        intro k hk
        simpa using h2 (k + 1) (by omega)

theorem npTranspose_get (x : NDArray) (axes idx : List Nat)
    (hv : validIdx (npTranspose x axes).shape idx = true) :
    (npTranspose x axes).get idx = x.get (permSource axes idx) := by
  unfold npTranspose at hv ⊢
  exact (NDArray.get_ofFn _ hv).trans (by rw [unravel_ravel hv])

theorem map_getD_range_eq (sh : List Nat) :
    (List.range sh.length).map (fun k => sh.getD k 0) = sh := by
  apply List.ext_getElem
  · simp
  · intro k h1 h2
    simp only [List.getElem_map, List.getElem_range]
    rw [List.getD_eq_getElem _ _ h2]

theorem map_swapFn_perm {n i j : Nat} (hi : i < n) (hj : j < n) :
    ((List.range n).map (swapFn i j)).Perm (List.range n) := by
  apply List.perm_of_nodup_nodup_toFinset_eq
  · exact (List.nodup_range n).map (swapFn_inj i j)
  · exact List.nodup_range n
  · apply Finset.ext
    intro x
    simp only [List.mem_toFinset, List.mem_map, List.mem_range]
    constructor
    · rintro ⟨k, hk, rfl⟩
      exact swapFn_lt hi hj hk
    · intro hx
      exact ⟨swapFn i j x, swapFn_lt hi hj hx, swapFn_invol i j x⟩

theorem prod_map_swapFn {n i j : Nat} (hi : i < n) (hj : j < n)
    {sh : List Nat} (hlen : sh.length = n) :
    ((List.range n).map (fun k => sh.getD (swapFn i j k) 0)).prod = sh.prod := by
  have h1 : (List.range n).map (fun k => sh.getD (swapFn i j k) 0) =
      ((List.range n).map (swapFn i j)).map (fun k => sh.getD k 0) := by
    rw [List.map_map]
    rfl
  rw [h1, ((map_swapFn_perm hi hj).map (fun k => sh.getD k 0)).prod_eq]
  rw [← hlen, map_getD_range_eq]

theorem npTranspose_shape (x : NDArray) (axes : List Nat) :
    (npTranspose x axes).shape = axes.map (fun m => x.shape.getD m 0) := rfl

theorem npTranspose_flat (x : NDArray) (axes : List Nat) :
    (npTranspose x axes).flat =
      (List.range ((axes.map (fun m => x.shape.getD m 0)).prod)).map
        (fun off => x.get (permSource axes
          (unravel (axes.map (fun m => x.shape.getD m 0)) off))) := rfl

theorem npTranspose_swap_swap (x : NDArray) {i j : Nat}
    (hi : i < x.shape.length) (hj : j < x.shape.length) :
    npTranspose (npTranspose x (swapAt (List.range x.shape.length) i j))
      (swapAt (List.range x.shape.length) i j) = x := by
  rw [swapAt_range_eq_map hi hj]
  have hBsh : (npTranspose x ((List.range x.shape.length).map (swapFn i j))).shape =
      (List.range x.shape.length).map (fun k => x.shape.getD (swapFn i j k) 0) := by
    rw [npTranspose_shape, List.map_map]
    rfl
  have hBlen : (npTranspose x ((List.range x.shape.length).map (swapFn i j))).shape.length =
      x.shape.length := by
    rw [hBsh]
    simp
  have hBgetD : ∀ k, k < x.shape.length →
      (npTranspose x ((List.range x.shape.length).map (swapFn i j))).shape.getD k 0 =
        x.shape.getD (swapFn i j k) 0 :=
    fun k hk => by rw [hBsh]; exact getD_map_range _ 0 hk
  have hns : ((List.range x.shape.length).map (swapFn i j)).map
      (fun m => (npTranspose x ((List.range x.shape.length).map (swapFn i j))).shape.getD m 0) =
      x.shape := by
    rw [List.map_map]
    have h1 : ∀ k ∈ List.range x.shape.length,
        ((fun m => (npTranspose x ((List.range x.shape.length).map (swapFn i j))).shape.getD m 0) ∘
          swapFn i j) k = x.shape.getD k 0 := by
      intro k hk
      have hk' := List.mem_range.mp hk
      show (npTranspose x ((List.range x.shape.length).map (swapFn i j))).shape.getD
        (swapFn i j k) 0 = x.shape.getD k 0
      rw [hBgetD (swapFn i j k) (swapFn_lt hi hj hk'), swapFn_invol]
    rw [List.map_congr_left h1, map_getD_range_eq]
  apply NDArray.eq_of_parts
  · rw [npTranspose_shape, hns]
  · rw [npTranspose_flat, hns]
    apply List.ext_getElem
    · rw [x.hlen]
      simp
    · intro off h1 h2
      have hoff : off < x.shape.prod := x.hlen ▸ h2
      have hvI : validIdx x.shape (unravel x.shape off) = true := unravel_valid hoff
      have hIlen : (unravel x.shape off).length = x.shape.length := validIdx_length hvI
      have hJdef : permSource ((List.range x.shape.length).map (swapFn i j))
          (unravel x.shape off) =
          (List.range x.shape.length).map
            (fun k => (unravel x.shape off).getD (swapFn i j k) 0) :=
        permSource_swap hi hj _
      have hvJ : validIdx
          (npTranspose x ((List.range x.shape.length).map (swapFn i j))).shape
          (permSource ((List.range x.shape.length).map (swapFn i j))
            (unravel x.shape off)) = true := by
        rw [validIdx_iff]
        constructor
        · rw [hJdef, hBlen]
          simp
        · intro k hk
          rw [hBlen] at hk
          rw [hJdef, getD_map_range _ 0 hk, hBgetD k hk]
          exact (validIdx_iff.mp hvI).2 (swapFn i j k) (swapFn_lt hi hj hk)
      have hJJ : permSource ((List.range x.shape.length).map (swapFn i j))
          (permSource ((List.range x.shape.length).map (swapFn i j))
            (unravel x.shape off)) = unravel x.shape off := by
        rw [permSource_swap hi hj]
        have h3 : ∀ k ∈ List.range x.shape.length,
            (permSource ((List.range x.shape.length).map (swapFn i j))
              (unravel x.shape off)).getD (swapFn i j k) 0 =
              (unravel x.shape off).getD k 0 := by
          intro k hk
          have hk' := List.mem_range.mp hk
          rw [hJdef, getD_map_range _ 0 (swapFn_lt hi hj hk'), swapFn_invol]
        rw [List.map_congr_left h3, ← hIlen, map_getD_range_eq]
      simp only [List.getElem_map, List.getElem_range]
      rw [npTranspose_get _ _ _ hvJ, hJJ]
      unfold NDArray.get
      rw [ravel_unravel hoff]
      exact List.getD_eq_getElem _ _ h2

theorem ofArray_data (a : NDArray) : (Tensor.ofArray a).data = a := rfl

theorem pyIndex_lt {n : Nat} {a : Int} {i : Nat} (h : pyIndex n a = some i) :
    i < n := by
  unfold pyIndex at h
  split_ifs at h with h1 h2 h3 <;>
    (replace h := Option.some.inj h; omega)

theorem transpose_default_eq (t : Tensor) (h : 2 ≤ t.shape.length) :
    t.transpose none none = .ok (Tensor.ofArray (npTranspose t.data
      (swapAt (List.range t.shape.length)
        (t.shape.length - 2) (t.shape.length - 1)))) := by
  have h1 : t.shape.length ≠ 1 := by omega
  have h2 : ¬ (t.shape.length < 2) := by omega
  simp [Tensor.transpose, h1, h2]

theorem transpose_dims_eq (t : Tensor) {a b : Int} {i j : Nat}
    (h : 2 ≤ t.shape.length)
    (hia : pyIndex t.shape.length a = some i)
    (hjb : pyIndex t.shape.length b = some j) :
    t.transpose (some a) (some b) =
      .ok (Tensor.ofArray (npTranspose t.data
        (swapAt (List.range t.shape.length) i j))) := by
  have h1 : t.shape.length ≠ 1 := by omega
  simp [Tensor.transpose, h1, hia, hjb]

/-- C7: for every Tensor of rank ≥ 2, transposing twice with the same axis
pair — either the no-argument default (swap of the last two axes) or any
valid explicit pair `(dim0, dim1)`, negative indices included — returns a
Tensor equal to the original in shape and elements. -/
theorem transpose_involution (t : Tensor) (a b : Int) (i j : Nat)
    (hrank : 2 ≤ t.shape.length)
    (hia : pyIndex t.shape.length a = some i)
    (hjb : pyIndex t.shape.length b = some j) :
    ((t.transpose none none).bind (fun u => u.transpose none none) = .ok t) ∧
    ((t.transpose (some a) (some b)).bind
      (fun u => u.transpose (some a) (some b)) = .ok t) := by
  have hshape_eq : ∀ (y : NDArray) (axes : List Nat),
      (Tensor.ofArray (npTranspose y axes)).shape.length = axes.length := by
    intro y axes
    simp [Tensor.ofArray, Tensor.shape, npTranspose_shape]
  constructor
  · rw [transpose_default_eq t hrank]
    have hu_len : (Tensor.ofArray (npTranspose t.data
        (swapAt (List.range t.shape.length)
          (t.shape.length - 2) (t.shape.length - 1)))).shape.length =
        t.shape.length := by
      rw [hshape_eq]
      simp [swapAt]
    show (Tensor.ofArray (npTranspose t.data _)).transpose none none = .ok t
    rw [transpose_default_eq _ (by rw [hu_len]; exact hrank), hu_len]
    have hkey := npTranspose_swap_swap t.data
      (i := t.shape.length - 2) (j := t.shape.length - 1)
      (by show t.shape.length - 2 < t.shape.length; omega)
      (by show t.shape.length - 1 < t.shape.length; omega)
    simp only [ofArray_data]
    rw [show t.data.shape = t.shape from rfl] at hkey
    rw [hkey]
    rfl
  · rw [transpose_dims_eq t hrank hia hjb]
    have hu_len : (Tensor.ofArray (npTranspose t.data
        (swapAt (List.range t.shape.length) i j))).shape.length =
        t.shape.length := by
      rw [hshape_eq]
      simp [swapAt]
    show (Tensor.ofArray (npTranspose t.data _)).transpose (some a) (some b) = .ok t
    rw [transpose_dims_eq _ (by rw [hu_len]; exact hrank)
      (by rw [hu_len]; exact hia) (by rw [hu_len]; exact hjb), hu_len]
    have hkey := npTranspose_swap_swap t.data
      (i := i) (j := j) (pyIndex_lt hia) (pyIndex_lt hjb)
    simp only [ofArray_data]
    rw [show t.data.shape = t.shape from rfl] at hkey
    rw [hkey]
    rfl

theorem transpose_involution_witness :
    ((t22.transpose none none).bind (fun u => u.transpose none none) = .ok t22) ∧
    ((t22.transpose (some 0) (some (-1))).bind
      (fun u => u.transpose (some 0) (some (-1))) = .ok t22) :=
  transpose_involution t22 0 (-1) 0 1 (by decide) (by decide) (by decide)
